import Mathlib

/-!
# HR Talent Matching Engine — verification development

Shallow embedding of the talent-matching engine: skill-gap analysis and course
recommendation (`utils.py`), the hash-based embedding generator (`vector_store.py`),
the score combiner and match orchestrator (`match.py`), and the match-history
store (`db.py`).  Python strings are `List Char`, Python floats are `ℚ`,
Python `round(x, 2)` is round-half-to-even on rationals.
-/

namespace HRTalent

/-- Python strings are modelled as lists of characters. -/
abbrev Str := List Char

/-- Python `s.lower()` (character-wise lowercasing). -/
def pyLower (s : Str) : Str := s.map Char.toLower

/-- Python `a in b` on strings: `a` is a contiguous substring of `b`. -/
def pyIn (a b : Str) : Bool := decide (a <:+: b)

/-- Python `round` to an integer: round half to even (banker's rounding). -/
def pyRoundInt (q : ℚ) : ℤ :=
  if q - ⌊q⌋ < 1/2 then ⌊q⌋
  else if (1/2 : ℚ) < q - ⌊q⌋ then ⌊q⌋ + 1
  else if ⌊q⌋ % 2 = 0 then ⌊q⌋ else ⌊q⌋ + 1

/-- Python `round(q, 2)`: round to two decimal places, half to even. -/
def round2 (q : ℚ) : ℚ := (pyRoundInt (q * 100) : ℚ) / 100

/-! ## `utils.py` — `SkillAnalyzer` -/

/-- Result dict of `SkillAnalyzer.find_skill_gaps`. -/
structure SkillGapResult where
  missing_skills : List Str
  matched_skills : List Str
  match_percentage : ℚ
deriving DecidableEq

/-- The inner `any(required_lower in emp_skill or emp_skill in required_lower ...)`
test of `find_skill_gaps` (`utils.py` line 186): `empLower` is the list of
lowercased employee skills. -/
def reqSatisfied (empLower : List Str) (required_lower : Str) : Bool :=
  empLower.any (fun emp_skill => pyIn required_lower emp_skill || pyIn emp_skill required_lower)

/-- `SkillAnalyzer.find_skill_gaps` (`utils.py` lines 178-194). -/
def find_skill_gaps (employee_skills required_skills : List Str) : SkillGapResult :=
  let employee_skills_lower := employee_skills.map pyLower
  let missing_skills := required_skills.filter
    (fun required_skill => !(reqSatisfied employee_skills_lower (pyLower required_skill)))
  { missing_skills := missing_skills
    matched_skills := required_skills.filter (fun skill => !(missing_skills.contains skill))
    match_percentage :=
      if required_skills.isEmpty then 0
      else round2 (((required_skills.length : ℚ) - (missing_skills.length : ℚ))
        / (required_skills.length : ℚ) * 100) }

/-- `db.py` `Course` model (only the fields `recommend_courses` consumes matter). -/
structure Course where
  id : Nat
  title : Str
  skill_tags : List Str
  provider : Str
  url : Str
  description : Str
deriving DecidableEq

/-- A course dict enriched with `relevance_score` and `relevance_percentage`
(the `{**course, ...}` dict built in `recommend_courses`). -/
structure CourseRecommendation where
  course : Course
  relevance_score : Nat
  relevance_percentage : ℚ
deriving DecidableEq

/-- The relevance-score loop of `recommend_courses` (`utils.py` lines 206-211):
count of missing skills fuzzy-matched against the lowercased course tags. -/
def courseRelevance (missing_skills : List Str) (course_skills_lower : List Str) : Nat :=
  missing_skills.countP (fun missing_skill =>
    course_skills_lower.any (fun course_skill =>
      pyIn (pyLower missing_skill) course_skill || pyIn course_skill (pyLower missing_skill)))

/-- `SkillAnalyzer.recommend_courses` (`utils.py` lines 196-222).
Python's stable `list.sort(key=..., reverse=True)` is modelled by
`List.insertionSort` with the descending relation. -/
def recommend_courses (missing_skills : List Str) (available_courses : List Course) :
    List CourseRecommendation :=
  let recommendations := available_courses.filterMap (fun course =>
    let course_skills_lower := course.skill_tags.map pyLower
    let relevance_score := courseRelevance missing_skills course_skills_lower
    if 0 < relevance_score then
      some { course := course
             relevance_score := relevance_score
             relevance_percentage :=
               round2 ((relevance_score : ℚ) / (missing_skills.length : ℚ) * 100) }
    else none)
  (recommendations.insertionSort (fun a b => b.relevance_score ≤ a.relevance_score)).take 3

/-! ## `match.py` — score combiner -/

/-- `TalentMatcher._calculate_overall_score` (`match.py` lines 219-222). -/
def overall_score (similarity_score skill_match_percentage : ℚ) : ℚ :=
  round2 (6/10 * similarity_score + 4/10 * skill_match_percentage)

/-! ## `vector_store.py` — hash-based embedding generator

`VectorStore.generate_embedding` hashes the text with MD5 and maps each pair of
hex digits of the digest to a scalar `val / 255`.  MD5 is implemented below
over byte lists with `Nat` arithmetic mod `2^32` (RFC 1321). -/

/-- Truncate to a 32-bit word. -/
def w32 (n : Nat) : Nat := n % 4294967296

/-- 32-bit bitwise complement (on a value `< 2^32`). -/
def bnot32 (x : Nat) : Nat := x ^^^ 4294967295

/-- 32-bit left rotation (on a value `< 2^32`). -/
def rotl32 (x s : Nat) : Nat := w32 (x <<< s) + (x >>> (32 - s))

/-- The `k`-byte little-endian encoding of `n`. -/
def leBytes (k n : Nat) : List Nat := (List.range k).map (fun i => (n >>> (8 * i)) % 256)

/-- MD5 sine-derived constant table (RFC 1321, T[1..64]). -/
def md5K : List Nat :=
  [0xd76aa478, 0xe8c7b756, 0x242070db, 0xc1bdceee,
   0xf57c0faf, 0x4787c62a, 0xa8304613, 0xfd469501,
   0x698098d8, 0x8b44f7af, 0xffff5bb1, 0x895cd7be,
   0x6b901122, 0xfd987193, 0xa679438e, 0x49b40821,
   0xf61e2562, 0xc040b340, 0x265e5a51, 0xe9b6c7aa,
   0xd62f105d, 0x02441453, 0xd8a1e681, 0xe7d3fbc8,
   0x21e1cde6, 0xc33707d6, 0xf4d50d87, 0x455a14ed,
   0xa9e3e905, 0xfcefa3f8, 0x676f02d9, 0x8d2a4c8a,
   0xfffa3942, 0x8771f681, 0x6d9d6122, 0xfde5380c,
   0xa4beea44, 0x4bdecfa9, 0xf6bb4b60, 0xbebfbc70,
   0x289b7ec6, 0xeaa127fa, 0xd4ef3085, 0x04881d05,
   0xd9d4d039, 0xe6db99e5, 0x1fa27cf8, 0xc4ac5665,
   0xf4292244, 0x432aff97, 0xab9423a7, 0xfc93a039,
   0x655b59c3, 0x8f0ccc92, 0xffeff47d, 0x85845dd1,
   0x6fa87e4f, 0xfe2ce6e0, 0xa3014314, 0x4e0811a1,
   0xf7537e82, 0xbd3af235, 0x2ad7d2bb, 0xeb86d391]

/-- MD5 per-round shift amounts. -/
def md5S : List Nat :=
  [7, 12, 17, 22, 7, 12, 17, 22, 7, 12, 17, 22, 7, 12, 17, 22,
   5, 9, 14, 20, 5, 9, 14, 20, 5, 9, 14, 20, 5, 9, 14, 20,
   4, 11, 16, 23, 4, 11, 16, 23, 4, 11, 16, 23, 4, 11, 16, 23,
   6, 10, 15, 21, 6, 10, 15, 21, 6, 10, 15, 21, 6, 10, 15, 21]

/-- MD5 padding: `0x80`, zeros to 56 mod 64, then the 64-bit little-endian bit length. -/
def padMsg (msg : List Nat) : List Nat :=
  msg ++ [128] ++ List.replicate ((119 - msg.length % 64) % 64) 0
    ++ leBytes 8 (msg.length * 8)

/-- Word `g` (little-endian 32-bit) of a 64-byte block. -/
def wordLE (block : List Nat) (g : Nat) : Nat :=
  block.getD (4 * g) 0 + 256 * block.getD (4 * g + 1) 0
    + 65536 * block.getD (4 * g + 2) 0 + 16777216 * block.getD (4 * g + 3) 0

/-- The four 32-bit MD5 state registers. -/
structure MD5State where
  a : Nat
  b : Nat
  c : Nat
  d : Nat
deriving DecidableEq

/-- One of the 64 MD5 compression steps. -/
def md5Step (block : List Nat) (st : MD5State) (i : Nat) : MD5State :=
  let fg : Nat × Nat :=
    if i < 16 then ((st.b &&& st.c) ||| (bnot32 st.b &&& st.d), i)
    else if i < 32 then ((st.d &&& st.b) ||| (bnot32 st.d &&& st.c), (5 * i + 1) % 16)
    else if i < 48 then (st.b ^^^ st.c ^^^ st.d, (3 * i + 5) % 16)
    else (st.c ^^^ (st.b ||| bnot32 st.d), (7 * i) % 16)
  let tmp := w32 (st.a + fg.1 + md5K.getD i 0 + wordLE block fg.2)
  { a := st.d, b := w32 (st.b + rotl32 tmp (md5S.getD i 0)), c := st.b, d := st.c }

/-- Process one 64-byte block. -/
def md5Block (st : MD5State) (block : List Nat) : MD5State :=
  let r := (List.range 64).foldl (md5Step block) st
  { a := w32 (st.a + r.a), b := w32 (st.b + r.b), c := w32 (st.c + r.c), d := w32 (st.d + r.d) }

/-- Split a byte list (of length a multiple of 64, as produced by `padMsg`)
into its 64-byte chunks. -/
def chunks64 (l : List Nat) : List (List Nat) :=
  (List.range (l.length / 64)).map (fun i => (l.drop (64 * i)).take 64)

/-- MD5 digest: 16 bytes. -/
def md5Bytes (msg : List Nat) : List Nat :=
  let st := (chunks64 (padMsg msg)).foldl md5Block
    ⟨0x67452301, 0xefcdab89, 0x98badcfe, 0x10325476⟩
  leBytes 4 st.a ++ leBytes 4 st.b ++ leBytes 4 st.c ++ leBytes 4 st.d

/-- Lowercase hex digit character. -/
def hexChar (n : Nat) : Char := "0123456789abcdef".toList.getD n '0'

/-- Two hex characters of a byte. -/
def byteHex (b : Nat) : List Char := [hexChar (b / 16), hexChar (b % 16)]

/-- `hashlib.md5(...).hexdigest()`: the 32-character lowercase hex digest. -/
def md5HexDigest (msg : List Nat) : List Char := (md5Bytes msg).flatMap byteHex

/-- Numeric value of a lowercase hex digit character. -/
def hexVal (c : Char) : Nat := if 97 ≤ c.toNat then c.toNat - 87 else c.toNat - 48

/-- The pair loop of `generate_embedding` (`vector_store.py` lines 49-53):
`int(text_hash[i:i+2], 16) / 255.0` for each pair of hex digits. -/
def hexPairVals : List Char → List ℚ
  | c1 :: c2 :: rest => ((16 * hexVal c1 + hexVal c2 : ℕ) : ℚ) / 255 :: hexPairVals rest
  | _ => []

/-- Python `str.encode()`: UTF-8 bytes of the text. -/
def utf8Bytes (s : Str) : List Nat := s.flatMap (fun c =>
  let n := c.toNat
  if n < 128 then [n]
  else if n < 2048 then [192 + n / 64, 128 + n % 64]
  else if n < 65536 then [224 + n / 4096, 128 + (n / 64) % 64, 128 + n % 64]
  else [240 + n / 262144, 128 + (n / 4096) % 64, 128 + (n / 64) % 64, 128 + n % 64])

/-- `VectorStore.generate_embedding` (`vector_store.py` lines 41-60): hex-pair
values of the MD5 hex digest, zero-padded and truncated to 384 components. -/
def generate_embedding (text : Str) : List ℚ :=
  let text_hash := md5HexDigest (utf8Bytes text)
  let embedding := hexPairVals text_hash
  (embedding ++ List.replicate (384 - embedding.length) 0).take 384

set_option maxRecDepth 10000 in
example : md5HexDigest (utf8Bytes "abc".toList)
    = "900150983cd24fb0d6963f7d28e17f72".toList := by decide

set_option maxRecDepth 10000 in
example : md5HexDigest (utf8Bytes [])
    = "d41d8cd98f00b204e9800998ecf8427e".toList := by decide

set_option maxRecDepth 10000 in
example : md5HexDigest (utf8Bytes "12".toList)
    = "c20ad4d76fe97759aa27a0c99bff6710".toList := by decide

/-! ## `db.py` — data model and `DatabaseManager` -/

/-- `db.py` `Employee` model (ids are always set on rows read back from SQLite). -/
structure Employee where
  id : Nat
  name : Str
  skills : List Str
  preferences : List Str
  resume_text : Str
  embedding_vector : Option (List ℚ)
deriving DecidableEq

/-- `db.py` `Project` model. -/
structure Project where
  id : Nat
  title : Str
  required_skills : List Str
  team_size : Nat
  description : Str
  embedding_vector : Option (List ℚ)
deriving DecidableEq

/-- One row of the `match_history` table. -/
structure MatchRecord where
  mh_id : Nat
  employee_id : Nat
  project_id : Nat
  match_score : ℚ
  missing_skills : List Str
  matched_skills : List Str
  skill_match_percentage : ℚ
  overall_score : ℚ
  timestamp : Nat
deriving DecidableEq

/-- The SQLite database contents. -/
structure DB where
  employees : List Employee
  projects : List Project
  courses : List Course
  match_history : List MatchRecord
deriving DecidableEq

/-- `DatabaseManager.get_employee` (`db.py` lines 172-194): `SELECT ... WHERE id = ?`. -/
def get_employee (db : DB) (employee_id : Nat) : Option Employee :=
  db.employees.find? (fun e => e.id == employee_id)

/-- `DatabaseManager.get_all_projects` (`db.py` lines 220-244). -/
def get_all_projects (db : DB) : List Project := db.projects

/-- `DatabaseManager.get_all_courses` (`db.py` lines 246-270). -/
def get_all_courses (db : DB) : List Course := db.courses

/-- `DatabaseManager.update_employee_embedding` (`db.py` lines 272-282):
`UPDATE employees SET embedding_vector = ? WHERE id = ?`. -/
def update_employee_embedding (db : DB) (employee_id : Nat) (embedding : List ℚ) : DB :=
  { db with employees := db.employees.map (fun e =>
      if e.id == employee_id then { e with embedding_vector := some embedding } else e) }

/-- `DatabaseManager.update_project_embedding` (`db.py` lines 284-294). -/
def update_project_embedding (db : DB) (project_id : Nat) (embedding : List ℚ) : DB :=
  { db with projects := db.projects.map (fun p =>
      if p.id == project_id then { p with embedding_vector := some embedding } else p) }

/-- `lastrowid` for an insert into `match_history` (fresh autoincrement id). -/
def nextMatchId (hist : List MatchRecord) : Nat :=
  hist.foldr (fun r m => max r.mh_id m) 0 + 1

/-- `DatabaseManager.add_match_history` (`db.py` lines 316-367): `SELECT` the
`(employee_id, project_id)` pair; `UPDATE` every matching row (refreshing the
timestamp) if one exists, else `INSERT` a new row.  `now` is `CURRENT_TIMESTAMP`. -/
def add_match_history (now : Nat) (employee_id project_id : Nat) (match_score : ℚ)
    (missing_skills matched_skills : List Str)
    (skill_match_percentage overall_score : ℚ) (db : DB) : DB :=
  match db.match_history.find?
      (fun r => r.employee_id == employee_id && r.project_id == project_id) with
  | some _ =>
    { db with match_history := db.match_history.map (fun r =>
        if r.employee_id == employee_id && r.project_id == project_id then
          { r with match_score := match_score, missing_skills := missing_skills,
                   matched_skills := matched_skills,
                   skill_match_percentage := skill_match_percentage,
                   overall_score := overall_score, timestamp := now }
        else r) }
  | none =>
    { db with match_history := db.match_history ++
        [{ mh_id := nextMatchId db.match_history, employee_id := employee_id,
           project_id := project_id, match_score := match_score,
           missing_skills := missing_skills, matched_skills := matched_skills,
           skill_match_percentage := skill_match_percentage,
           overall_score := overall_score, timestamp := now }] }

/-! ## `vector_store.py` — similarity index

The index itself is ChromaDB, an external library (not part of this repository's
sources); its collections and `query` are modelled from the spec (§4.2): one
entry per id, `query` returns up to `k` entries ranked by ascending cosine
distance with ties in insertion order.  The cosine-distance computation lives
inside ChromaDB, so it is kept as an explicit function parameter `dist`. -/

/-- An entry of the `employees` collection (id, vector, document, metadata). -/
structure EmployeeEntry where
  employee_id : Nat
  name : Str
  skills : List Str
  document : Str
  vector : List ℚ
deriving DecidableEq

/-- An entry of the `projects` collection. -/
structure ProjectEntry where
  project_id : Nat
  title : Str
  required_skills : List Str
  document : Str
  vector : List ℚ
deriving DecidableEq

/-- Python `", ".join(skills)`. -/
def joinComma (skills : List Str) : Str := List.intercalate ", ".toList skills

/-- The combined text `f"{name} Skills: {', '.join(skills)} Resume: {resume_text}"`
(`match.py` line 32, `vector_store.py` line 66). -/
def employeeText (name : Str) (skills : List Str) (resume_text : Str) : Str :=
  name ++ " Skills: ".toList ++ joinComma skills ++ " Resume: ".toList ++ resume_text

/-- The combined text
`f"{title} Required Skills: {', '.join(required_skills)} Description: {description}"`
(`match.py` line 106, `vector_store.py` line 83). -/
def projectText (title : Str) (required_skills : List Str) (description : Str) : Str :=
  title ++ " Required Skills: ".toList ++ joinComma required_skills
    ++ " Description: ".toList ++ description

/-- `VectorStore.add_employee_embedding` (`vector_store.py` lines 62-77). -/
def add_employee_embedding (coll : List EmployeeEntry) (employee_id : Nat) (name : Str)
    (skills : List Str) (resume_text : Str) (embedding : List ℚ) : List EmployeeEntry :=
  coll ++ [{ employee_id := employee_id, name := name, skills := skills,
             document := employeeText name skills resume_text, vector := embedding }]

/-- `VectorStore.add_project_embedding` (`vector_store.py` lines 79-94). -/
def add_project_embedding (coll : List ProjectEntry) (project_id : Nat) (title : Str)
    (required_skills : List Str) (description : Str) (embedding : List ℚ) : List ProjectEntry :=
  coll ++ [{ project_id := project_id, title := title, required_skills := required_skills,
             document := projectText title required_skills description, vector := embedding }]

/-- `VectorStore.update_employee_embedding` (`vector_store.py` lines 154-164):
delete any entry with this id, then add the new entry. -/
def vs_update_employee_embedding (coll : List EmployeeEntry) (employee_id : Nat) (name : Str)
    (skills : List Str) (resume_text : Str) (embedding : List ℚ) : List EmployeeEntry :=
  add_employee_embedding (coll.filter (fun e => e.employee_id != employee_id))
    employee_id name skills resume_text embedding

/-- `VectorStore.update_project_embedding` (`vector_store.py` lines 166-176). -/
def vs_update_project_embedding (coll : List ProjectEntry) (project_id : Nat) (title : Str)
    (required_skills : List Str) (description : Str) (embedding : List ℚ) : List ProjectEntry :=
  add_project_embedding (coll.filter (fun p => p.project_id != project_id))
    project_id title required_skills description embedding

/-- Modelled from the spec: ChromaDB `collection.query` (external library, not
under `src/`) — returns up to `n_results` entries ranked by ascending cosine
distance to the query vector, ties stable in insertion order (§4.2). -/
def chromaQuery (dist : List ℚ → List ℚ → ℚ) (entries : List α) (vecOf : α → List ℚ)
    (query_embedding : List ℚ) (n_results : Nat) : List α :=
  (entries.insertionSort
    (fun e1 e2 => dist query_embedding (vecOf e1) ≤ dist query_embedding (vecOf e2))).take n_results

/-- A result dict of `VectorStore.find_similar_projects`. -/
structure SimilarProject where
  project_id : Nat
  title : Str
  required_skills : List Str
  similarity_score : ℚ
  document : Str
deriving DecidableEq

/-- A result dict of `VectorStore.find_similar_employees`. -/
structure SimilarEmployee where
  employee_id : Nat
  name : Str
  skills : List Str
  similarity_score : ℚ
  document : Str
deriving DecidableEq

/-- `VectorStore.find_similar_projects` (`vector_store.py` lines 96-123):
query the `projects` collection and convert each distance to a similarity
score `round((1 - distance) * 100, 2)`. -/
def find_similar_projects (dist : List ℚ → List ℚ → ℚ) (coll : List ProjectEntry)
    (employee_embedding : List ℚ) (top_k : Nat) : List SimilarProject :=
  (chromaQuery dist coll (fun e => e.vector) employee_embedding top_k).map (fun e =>
    { project_id := e.project_id, title := e.title, required_skills := e.required_skills,
      similarity_score := round2 ((1 - dist employee_embedding e.vector) * 100),
      document := e.document })

/-- `VectorStore.find_similar_employees` (`vector_store.py` lines 125-152). -/
def find_similar_employees (dist : List ℚ → List ℚ → ℚ) (coll : List EmployeeEntry)
    (project_embedding : List ℚ) (top_k : Nat) : List SimilarEmployee :=
  (chromaQuery dist coll (fun e => e.vector) project_embedding top_k).map (fun e =>
    { employee_id := e.employee_id, name := e.name, skills := e.skills,
      similarity_score := round2 ((1 - dist project_embedding e.vector) * 100),
      document := e.document })

/-! ## `match.py` — `TalentMatcher` orchestrator -/

/-- The shared mutable state the orchestrator acts on: the SQLite database and
the two ChromaDB collections. -/
structure SysState where
  db : DB
  employees_collection : List EmployeeEntry
  projects_collection : List ProjectEntry
deriving DecidableEq

/-- Python truthiness of an optional embedding list:
`not employee.embedding_vector` is `True` for `None` and for `[]`. -/
def isFalsyVec (v : Option (List ℚ)) : Bool :=
  match v with
  | none => true
  | some l => l.isEmpty

/-- An enriched match dict built by `match_employee_to_projects`
(`match.py` lines 65-76). -/
structure EnhancedProjectMatch where
  project_id : Nat
  title : Str
  description : Str
  team_size : Nat
  required_skills : List Str
  similarity_score : ℚ
  skill_match_percentage : ℚ
  matched_skills : List Str
  missing_skills : List Str
  overall_score : ℚ
deriving DecidableEq

/-- An enriched match dict built by `match_project_to_employees`
(`match.py` lines 131-144). -/
structure EnhancedEmployeeMatch where
  employee_id : Nat
  name : Str
  skills : List Str
  preferences : List Str
  similarity_score : ℚ
  skill_match_percentage : ℚ
  matched_skills : List Str
  missing_skills : List Str
  overall_score : ℚ
deriving DecidableEq

/-- The enrichment loop of `match_employee_to_projects` (`match.py` lines 46-88):
resolve each candidate project, build the enriched match, and persist it via
`add_match_history`; unresolvable candidates are skipped. -/
def enhanceProjects (now : Nat) (employee_id : Nat) (employee_skills : List Str) :
    List SimilarProject → DB → List EnhancedProjectMatch × DB
  | [], db => ([], db)
  | project_data :: rest, db =>
    match (get_all_projects db).find? (fun p => p.id == project_data.project_id) with
    | none => enhanceProjects now employee_id employee_skills rest db
    | some project =>
      let skill_gap_analysis := find_skill_gaps employee_skills project.required_skills
      let score := overall_score project_data.similarity_score skill_gap_analysis.match_percentage
      let enhanced_match : EnhancedProjectMatch :=
        { project_id := project_data.project_id, title := project.title,
          description := project.description, team_size := project.team_size,
          required_skills := project.required_skills,
          similarity_score := project_data.similarity_score,
          skill_match_percentage := skill_gap_analysis.match_percentage,
          matched_skills := skill_gap_analysis.matched_skills,
          missing_skills := skill_gap_analysis.missing_skills,
          overall_score := score }
      let db1 := add_match_history now employee_id project_data.project_id
        project_data.similarity_score skill_gap_analysis.missing_skills
        skill_gap_analysis.matched_skills skill_gap_analysis.match_percentage score db
      let r := enhanceProjects now employee_id employee_skills rest db1
      (enhanced_match :: r.1, r.2)

/-- The lazy embedding step of `match_employee_to_projects` (`match.py` lines
29-40): if the employee has no cached embedding (`None` or `[]`), generate one,
persist it to the database and upsert it into the index; otherwise reuse it. -/
def ensureEmployeeEmbedding (st : SysState) (employee_id : Nat) (employee : Employee) :
    List ℚ × SysState :=
  if isFalsyVec employee.embedding_vector then
    let employee_embedding :=
      generate_embedding (employeeText employee.name employee.skills employee.resume_text)
    let db1 := update_employee_embedding st.db employee_id employee_embedding
    let coll1 := vs_update_employee_embedding st.employees_collection employee_id
      employee.name employee.skills employee.resume_text employee_embedding
    (employee_embedding, { st with db := db1, employees_collection := coll1 })
  else (employee.embedding_vector.getD [], st)

/-- `TalentMatcher.match_employee_to_projects` (`match.py` lines 22-92).
Returns the ranked enriched matches together with the post-state.  `dist` is
ChromaDB's cosine distance, `now` the database timestamp. -/
def match_employee_to_projects (dist : List ℚ → List ℚ → ℚ) (now : Nat)
    (st : SysState) (employee_id : Nat) (top_k : Nat) :
    List EnhancedProjectMatch × SysState :=
  match get_employee st.db employee_id with
  | none => ([], st)
  | some employee =>
    let est := ensureEmployeeEmbedding st employee_id employee
    let similar_projects :=
      find_similar_projects dist est.2.projects_collection est.1 top_k
    let r := enhanceProjects now employee_id employee.skills similar_projects est.2.db
    (r.1.insertionSort (fun a b => b.overall_score ≤ a.overall_score),
     { est.2 with db := r.2 })

/-- The enrichment loop of `match_project_to_employees` (`match.py` lines
120-145): resolve each candidate employee and build the enriched match;
unresolvable candidates are skipped.  No persistence happens here. -/
def enhanceEmployees (db : DB) (required_skills : List Str) :
    List SimilarEmployee → List EnhancedEmployeeMatch
  | [] => []
  | employee_data :: rest =>
    match get_employee db employee_data.employee_id with
    | none => enhanceEmployees db required_skills rest
    | some employee =>
      let skill_gap_analysis := find_skill_gaps employee.skills required_skills
      { employee_id := employee_data.employee_id, name := employee.name,
        skills := employee.skills, preferences := employee.preferences,
        similarity_score := employee_data.similarity_score,
        skill_match_percentage := skill_gap_analysis.match_percentage,
        matched_skills := skill_gap_analysis.matched_skills,
        missing_skills := skill_gap_analysis.missing_skills,
        overall_score := overall_score employee_data.similarity_score
          skill_gap_analysis.match_percentage }
        :: enhanceEmployees db required_skills rest

/-- The lazy embedding step of `match_project_to_employees` (`match.py` lines
103-114). -/
def ensureProjectEmbedding (st : SysState) (project_id : Nat) (project : Project) :
    List ℚ × SysState :=
  if isFalsyVec project.embedding_vector then
    let project_embedding :=
      generate_embedding (projectText project.title project.required_skills project.description)
    let db1 := update_project_embedding st.db project_id project_embedding
    let coll1 := vs_update_project_embedding st.projects_collection project_id
      project.title project.required_skills project.description project_embedding
    (project_embedding, { st with db := db1, projects_collection := coll1 })
  else (project.embedding_vector.getD [], st)

/-- `TalentMatcher.match_project_to_employees` (`match.py` lines 94-149). -/
def match_project_to_employees (dist : List ℚ → List ℚ → ℚ)
    (st : SysState) (project_id : Nat) (top_k : Nat) :
    List EnhancedEmployeeMatch × SysState :=
  match (get_all_projects st.db).find? (fun p => p.id == project_id) with
  | none => ([], st)
  | some project =>
    let est := ensureProjectEmbedding st project_id project
    let similar_employees :=
      find_similar_employees dist est.2.employees_collection est.1 top_k
    let enhanced_matches := enhanceEmployees est.2.db project.required_skills similar_employees
    (enhanced_matches.insertionSort (fun a b => b.overall_score ≤ a.overall_score), est.2)

/-! ## `match.py` — skill-gap analysis endpoint -/

/-- The seven fixed skill categories of `SkillAnalyzer` (`utils.py` lines 148-156),
in enumeration order. -/
def skill_categories : List (Str × List Str) :=
  [("programming".toList,
    ["python".toList, "java".toList, "javascript".toList, "typescript".toList,
     "c++".toList, "c#".toList, "go".toList, "rust".toList]),
   ("web_development".toList,
    ["react".toList, "angular".toList, "vue".toList, "html".toList, "css".toList,
     "node.js".toList, "express".toList]),
   ("data_science".toList,
    ["python".toList, "r".toList, "sql".toList, "pandas".toList, "numpy".toList,
     "tensorflow".toList, "pytorch".toList, "scikit-learn".toList]),
   ("cloud_devops".toList,
    ["aws".toList, "azure".toList, "gcp".toList, "docker".toList, "kubernetes".toList,
     "terraform".toList, "jenkins".toList]),
   ("databases".toList,
    ["mysql".toList, "postgresql".toList, "mongodb".toList, "redis".toList,
     "elasticsearch".toList, "sqlite".toList]),
   ("mobile".toList,
    ["swift".toList, "kotlin".toList, "react native".toList, "flutter".toList,
     "ios".toList, "android".toList]),
   ("ai_ml".toList,
    ["machine learning".toList, "deep learning".toList, "nlp".toList,
     "computer vision".toList, "tensorflow".toList, "pytorch".toList])]

/-- The first category (in enumeration order) whose keyword list has a substring
match against the lowercased skill, else `"other"` — the first-match-wins
assignment of `categorize_skills` (`utils.py` lines 163-174). -/
def assignedCategory (skill : Str) : Str :=
  match skill_categories.find? (fun cat =>
      cat.2.any (fun cat_skill => pyIn cat_skill (pyLower skill))) with
  | some cat => cat.1
  | none => "other".toList

/-- `SkillAnalyzer.categorize_skills` (`utils.py` lines 158-176): each skill goes
to exactly its first-matching category; the per-category append loop is modelled
as an order-preserving filter per category key. -/
def categorize_skills (skills : List Str) : List (Str × List Str) :=
  (skill_categories.map (fun c => c.1) ++ ["other".toList]).map (fun cat =>
    (cat, skills.filter (fun skill => assignedCategory skill == cat)))

/-- `TalentMatcher._get_recommended_courses` (`match.py` lines 224-239). -/
def get_recommended_courses (db : DB) (missing_skills : List Str) : List CourseRecommendation :=
  recommend_courses missing_skills (get_all_courses db)

/-- The gap-report dict returned by `analyze_skill_gaps`: either the
project-scoped report or the general (all-projects) report. -/
inductive GapReport where
  | projectReport (employee_id : Nat) (project_id : Nat) (project_title : Str)
      (skill_gap_analysis : SkillGapResult)
      (recommended_courses : List CourseRecommendation)
  | generalReport (employee_id : Nat) (skill_gap_analysis : SkillGapResult)
      (recommended_courses : List CourseRecommendation)
      (skill_categories : List (Str × List Str))
deriving DecidableEq

/-- The possible Python return values of `analyze_skill_gaps`: `None` (the
function falls through without returning), the empty dict `{}` (employee
absent), or a gap report. -/
inductive AnalyzeResult where
  | pyNone
  | emptyDict
  | report (r : GapReport)
deriving DecidableEq

/-- Python truthiness of the optional `project_id` argument:
`if project_id:` is `False` for `None` and for `0`. -/
def truthyId (project_id : Option Nat) : Bool :=
  match project_id with
  | some n => n != 0
  | none => false

/-- All required skills across projects: `set()` + `update` per project
(`match.py` lines 174-178).  Python's set iteration order is unspecified;
the model picks the concrete order produced by `List.dedup`. -/
def all_required_skills (projects : List Project) : List Str :=
  (projects.flatMap (fun p => p.required_skills)).dedup

/-- `TalentMatcher.analyze_skill_gaps` (`match.py` lines 151-189). -/
def analyze_skill_gaps (st : SysState) (employee_id : Nat) (project_id : Option Nat) :
    AnalyzeResult :=
  match get_employee st.db employee_id with
  | none => .emptyDict
  | some employee =>
    if truthyId project_id then
      match (get_all_projects st.db).find? (fun p => p.id == project_id.getD 0) with
      | some project =>
        let skill_gap_analysis := find_skill_gaps employee.skills project.required_skills
        .report (.projectReport employee_id (project_id.getD 0) project.title
          skill_gap_analysis
          (get_recommended_courses st.db skill_gap_analysis.missing_skills))
      | none => .pyNone
    else
      let skill_gap_analysis := find_skill_gaps employee.skills
        (all_required_skills (get_all_projects st.db))
      .report (.generalReport employee_id skill_gap_analysis
        (get_recommended_courses st.db skill_gap_analysis.missing_skills)
        (categorize_skills employee.skills))

/-! ## Rounding lemmas -/

theorem pyRoundInt_intCast (n : ℤ) : pyRoundInt (n : ℚ) = n := by
  unfold pyRoundInt
  rw [Int.floor_intCast, sub_self]
  norm_num

theorem pyRoundInt_nonneg {q : ℚ} (h : 0 ≤ q) : 0 ≤ pyRoundInt q := by
  have h0 : (0 : ℤ) ≤ ⌊q⌋ := Int.floor_nonneg.mpr h
  unfold pyRoundInt
  split_ifs <;> omega

theorem pyRoundInt_le {q : ℚ} {n : ℤ} (h : q ≤ (n : ℚ)) : pyRoundInt q ≤ n := by
  have h1 : ⌊q⌋ ≤ n := by
    have := Int.floor_le_floor h
    simpa using this
  have hfl : (⌊q⌋ : ℚ) ≤ q := Int.floor_le q
  unfold pyRoundInt
  split_ifs with ha hb hc
  · exact h1
  · have h2 : (⌊q⌋ : ℚ) < (n : ℚ) := by linarith
    have h3 : ⌊q⌋ < n := by exact_mod_cast h2
    omega
  · exact h1
  · have ha' : (1 : ℚ)/2 ≤ q - ⌊q⌋ := le_of_not_lt ha
    have h2 : (⌊q⌋ : ℚ) < (n : ℚ) := by linarith
    have h3 : ⌊q⌋ < n := by exact_mod_cast h2
    omega

theorem round2_nonneg {q : ℚ} (h : 0 ≤ q) : 0 ≤ round2 q := by
  unfold round2
  have h1 : (0 : ℤ) ≤ pyRoundInt (q * 100) :=
    pyRoundInt_nonneg (mul_nonneg h (by norm_num))
  have h2 : (0 : ℚ) ≤ (pyRoundInt (q * 100) : ℚ) := by exact_mod_cast h1
  positivity

theorem round2_le {q : ℚ} {n : ℤ} (h : q ≤ (n : ℚ)) : round2 q ≤ (n : ℚ) := by
  unfold round2
  have h100 : q * 100 ≤ ((n * 100 : ℤ) : ℚ) := by push_cast; linarith
  have h1 := pyRoundInt_le h100
  rw [div_le_iff₀ (by norm_num : (0 : ℚ) < 100)]
  exact_mod_cast h1

theorem round2_intCast (n : ℤ) : round2 ((n : ℤ) : ℚ) = (n : ℚ) := by
  unfold round2
  have h : ((n : ℤ) : ℚ) * 100 = ((n * 100 : ℤ) : ℚ) := by push_cast; ring
  rw [h, pyRoundInt_intCast]
  push_cast
  field_simp

/-! ## C4 — score combiner -/

/-- C4: the score combiner computes
`overallScore(similarity, skillMatchPct) = round(0.6*similarity + 0.4*skillMatchPct, 2)`
as a pure total function; for all inputs in `[0,100]` the result lies in `[0,100]`,
with `overallScore(100,100) = 100` and `overallScore(0,0) = 0`. -/
theorem overall_score_spec (s m : ℚ) (hs0 : 0 ≤ s) (hs1 : s ≤ 100)
    (hm0 : 0 ≤ m) (hm1 : m ≤ 100) :
    overall_score s m = round2 (6/10 * s + 4/10 * m) ∧
    0 ≤ overall_score s m ∧ overall_score s m ≤ 100 ∧
    overall_score 100 100 = 100 ∧ overall_score 0 0 = 0 := by
  refine ⟨rfl, ?_, ?_, ?_, ?_⟩
  · exact round2_nonneg (by linarith)
  · have h : 6/10 * s + 4/10 * m ≤ (((100 : ℤ)) : ℚ) := by push_cast; linarith
    have := round2_le h
    unfold overall_score
    push_cast at this
    linarith
  · show round2 (6/10 * 100 + 4/10 * 100) = 100
    have h : (6/10 * 100 + 4/10 * 100 : ℚ) = ((100 : ℤ) : ℚ) := by norm_num
    rw [h, round2_intCast]
    norm_num
  · show round2 (6/10 * 0 + 4/10 * 0) = 0
    have h : (6/10 * 0 + 4/10 * 0 : ℚ) = ((0 : ℤ) : ℚ) := by norm_num
    rw [h, round2_intCast]
    norm_num

/-- Witness for C4 at the concrete input `(50, 50)`. -/
theorem overall_score_spec_witness :
    0 ≤ overall_score 50 50 ∧ overall_score 50 50 ≤ 100 :=
  ⟨(overall_score_spec 50 50 (by norm_num) (by norm_num) (by norm_num) (by norm_num)).2.1,
   (overall_score_spec 50 50 (by norm_num) (by norm_num) (by norm_num) (by norm_num)).2.2.1⟩

/-! ## C1, C3 — skill-gap analyzer -/

theorem mem_missing_iff (employee_skills required_skills : List Str) (s : Str) :
    s ∈ (find_skill_gaps employee_skills required_skills).missing_skills ↔
      s ∈ required_skills ∧
        reqSatisfied (employee_skills.map pyLower) (pyLower s) = false := by
  simp [find_skill_gaps, List.mem_filter]

theorem mem_matched_iff (employee_skills required_skills : List Str) (s : Str) :
    s ∈ (find_skill_gaps employee_skills required_skills).matched_skills ↔
      s ∈ required_skills ∧
        ¬ s ∈ (find_skill_gaps employee_skills required_skills).missing_skills := by
  constructor
  · intro h
    simp only [find_skill_gaps, List.mem_filter, Bool.not_eq_eq_eq_not, Bool.not_true] at h ⊢
    refine ⟨h.1, ?_⟩
    have := h.2
    intro hmem
    rw [← List.elem_iff] at hmem
    simp only [List.contains] at hmem
    simp_all
  · intro h
    simp only [find_skill_gaps, List.mem_filter, Bool.not_eq_eq_eq_not, Bool.not_true] at h ⊢
    refine ⟨h.1, ?_⟩
    have := h.2
    rw [show ∀ b : Bool, (b = false) = (¬ b = true) from fun b => by simp]
    intro hc
    rw [List.elem_iff] at hc
    exact this (by simpa [find_skill_gaps] using hc)

/-- C1: `find_skill_gaps` returns matched and missing lists that partition the
required set (union equals the required set, and they are disjoint);
`matchPercentage = round((|required| - |missing|) / |required| * 100, 2)`,
equals `100` when `missing` is empty and `required` non-empty, and is `0`
when `required` is empty. -/
theorem find_skill_gaps_spec (employee_skills required_skills : List Str) :
    (∀ s, s ∈ required_skills ↔
        (s ∈ (find_skill_gaps employee_skills required_skills).matched_skills ∨
         s ∈ (find_skill_gaps employee_skills required_skills).missing_skills)) ∧
    (∀ s, ¬(s ∈ (find_skill_gaps employee_skills required_skills).matched_skills ∧
            s ∈ (find_skill_gaps employee_skills required_skills).missing_skills)) ∧
    (required_skills ≠ [] →
      (find_skill_gaps employee_skills required_skills).match_percentage =
        round2 (((required_skills.length : ℚ)
            - ((find_skill_gaps employee_skills required_skills).missing_skills.length : ℚ))
          / (required_skills.length : ℚ) * 100)) ∧
    ((find_skill_gaps employee_skills required_skills).missing_skills = [] →
      required_skills ≠ [] →
      (find_skill_gaps employee_skills required_skills).match_percentage = 100) ∧
    (required_skills = [] →
      (find_skill_gaps employee_skills required_skills).match_percentage = 0) := by
  have hpct : required_skills ≠ [] →
      (find_skill_gaps employee_skills required_skills).match_percentage =
        round2 (((required_skills.length : ℚ)
            - ((find_skill_gaps employee_skills required_skills).missing_skills.length : ℚ))
          / (required_skills.length : ℚ) * 100) := by
    intro hne
    simp [find_skill_gaps, List.isEmpty_iff, hne]
  refine ⟨?_, ?_, hpct, ?_, ?_⟩
  · intro s
    constructor
    · intro hs
      by_cases hsat : reqSatisfied (employee_skills.map pyLower) (pyLower s) = false
      · exact Or.inr ((mem_missing_iff _ _ _).mpr ⟨hs, hsat⟩)
      · refine Or.inl ((mem_matched_iff _ _ _).mpr ⟨hs, ?_⟩)
        intro hm
        exact hsat ((mem_missing_iff _ _ _).mp hm).2
    · rintro (h | h)
      · exact ((mem_matched_iff _ _ _).mp h).1
      · exact ((mem_missing_iff _ _ _).mp h).1
  · intro s ⟨hmat, hmis⟩
    exact ((mem_matched_iff _ _ _).mp hmat).2 hmis
  · intro hmis hne
    rw [hpct hne, hmis]
    have hn : (0 : ℚ) < (required_skills.length : ℚ) := by
      have := List.length_pos.mpr hne
      exact_mod_cast this
    have harg : (((required_skills.length : ℚ) - ((List.length ([] : List Str) : ℕ) : ℚ))
        / (required_skills.length : ℚ) * 100) = ((100 : ℤ) : ℚ) := by
      simp only [List.length_nil, Nat.cast_zero, sub_zero]
      rw [div_self (ne_of_gt hn)]
      norm_num
    rw [harg, round2_intCast]
    norm_num
  · intro he
    simp [find_skill_gaps, he]

/-- Witness for C1: with candidate skills `["python"]` and required `["python"]`,
`missing` is empty, `required` is non-empty, and the match percentage is 100. -/
theorem find_skill_gaps_spec_witness :
    (find_skill_gaps ["python".toList] ["python".toList]).match_percentage = 100 :=
  (find_skill_gaps_spec ["python".toList] ["python".toList]).2.2.2.1 (by decide) (by decide)

theorem reqSatisfied_iff (employee_skills : List Str) (r : Str) :
    reqSatisfied (employee_skills.map pyLower) (pyLower r) = true ↔
      ∃ e ∈ employee_skills, pyLower e <:+: pyLower r ∨ pyLower r <:+: pyLower e := by
  simp only [reqSatisfied, List.any_eq_true, List.mem_map, pyIn, Bool.or_eq_true,
    decide_eq_true_eq]
  constructor
  · rintro ⟨x, ⟨e, he, rfl⟩, h⟩
    exact ⟨e, he, h.symm⟩
  · rintro ⟨e, he, h⟩
    exact ⟨pyLower e, ⟨e, he, rfl⟩, h.symm⟩

/-- C3: a required skill is placed in `matched` (and not in `missing`) iff some
candidate skill, after lowercasing both, is a substring of it or contains it
as a substring. -/
theorem find_skill_gaps_fuzzy (employee_skills required_skills : List Str) (r : Str)
    (hr : r ∈ required_skills) :
    (r ∈ (find_skill_gaps employee_skills required_skills).matched_skills ↔
      ∃ e ∈ employee_skills, pyLower e <:+: pyLower r ∨ pyLower r <:+: pyLower e) ∧
    (r ∈ (find_skill_gaps employee_skills required_skills).missing_skills ↔
      ¬ ∃ e ∈ employee_skills, pyLower e <:+: pyLower r ∨ pyLower r <:+: pyLower e) := by
  have hmis : r ∈ (find_skill_gaps employee_skills required_skills).missing_skills ↔
      ¬ ∃ e ∈ employee_skills, pyLower e <:+: pyLower r ∨ pyLower r <:+: pyLower e := by
    rw [mem_missing_iff, ← reqSatisfied_iff]
    constructor
    · rintro ⟨_, hf⟩
      simp [hf]
    · intro h
      refine ⟨hr, ?_⟩
      simpa using h
  refine ⟨?_, hmis⟩
  rw [mem_matched_iff, hmis]
  constructor
  · rintro ⟨_, h⟩
    by_contra hn
    exact h hn
  · intro h
    exact ⟨hr, fun hc => hc h⟩

/-- Witness for C3: candidate skill `"js"` satisfies required skill
`"javascript"` by substring containment. -/
theorem find_skill_gaps_fuzzy_witness :
    ("javascript".toList ∈
        (find_skill_gaps ["js".toList] ["javascript".toList]).matched_skills ↔
      ∃ e ∈ ["js".toList], pyLower e <:+: pyLower "javascript".toList ∨
        pyLower "javascript".toList <:+: pyLower e) ∧
    ("javascript".toList ∈
        (find_skill_gaps ["js".toList] ["javascript".toList]).missing_skills ↔
      ¬ ∃ e ∈ ["js".toList], pyLower e <:+: pyLower "javascript".toList ∨
        pyLower "javascript".toList <:+: pyLower e) :=
  find_skill_gaps_fuzzy ["js".toList] ["javascript".toList] "javascript".toList (by decide)

/-! ## C8 — course recommender -/

/-- C8: each recommended course carries a relevance equal to the count of missing
skills fuzzy-matched against its tags; courses with relevance 0 are excluded;
results are ranked by relevance descending and truncated to 3; the relevance
percentage is only ever computed with a non-empty `missing_skills` (so the
division by `|missingSkills|` is never a division by zero), and an empty
`missing_skills` yields an empty result. -/
theorem recommend_courses_spec (missing_skills : List Str) (available_courses : List Course) :
    (recommend_courses missing_skills available_courses).length ≤ 3 ∧
    (recommend_courses missing_skills available_courses).Pairwise
      (fun a b => b.relevance_score ≤ a.relevance_score) ∧
    (∀ cr ∈ recommend_courses missing_skills available_courses,
        cr.relevance_score = courseRelevance missing_skills (cr.course.skill_tags.map pyLower) ∧
        0 < cr.relevance_score ∧
        cr.relevance_percentage =
          round2 ((cr.relevance_score : ℚ) / (missing_skills.length : ℚ) * 100) ∧
        missing_skills ≠ []) ∧
    (missing_skills = [] → recommend_courses missing_skills available_courses = []) := by
  refine ⟨?_, ?_, ?_, ?_⟩
  · exact List.length_take_le 3 _
  · haveI ht : IsTotal CourseRecommendation
        (fun a b => b.relevance_score ≤ a.relevance_score) :=
      ⟨fun a b => le_total b.relevance_score a.relevance_score⟩
    haveI htr : IsTrans CourseRecommendation
        (fun a b => b.relevance_score ≤ a.relevance_score) :=
      ⟨fun _ _ _ hab hbc => le_trans hbc hab⟩
    have hs := List.sorted_insertionSort
      (r := fun a b : CourseRecommendation => b.relevance_score ≤ a.relevance_score)
      (available_courses.filterMap (fun course =>
        let course_skills_lower := course.skill_tags.map pyLower
        let relevance_score := courseRelevance missing_skills course_skills_lower
        if 0 < relevance_score then
          some { course := course
                 relevance_score := relevance_score
                 relevance_percentage :=
                   round2 ((relevance_score : ℚ) / (missing_skills.length : ℚ) * 100) }
        else none))
    exact List.Pairwise.sublist (List.take_sublist 3 _) hs
  · intro cr hcr
    have h1 : cr ∈ (available_courses.filterMap (fun course =>
        let course_skills_lower := course.skill_tags.map pyLower
        let relevance_score := courseRelevance missing_skills course_skills_lower
        if 0 < relevance_score then
          some { course := course
                 relevance_score := relevance_score
                 relevance_percentage :=
                   round2 ((relevance_score : ℚ) / (missing_skills.length : ℚ) * 100) }
        else none)) := by
      have := List.mem_of_mem_take hcr
      rwa [List.mem_insertionSort] at this
    rw [List.mem_filterMap] at h1
    obtain ⟨course, _, hsome⟩ := h1
    by_cases hpos : 0 < courseRelevance missing_skills (course.skill_tags.map pyLower)
    · simp only [if_pos hpos] at hsome
      cases hsome
      refine ⟨rfl, hpos, rfl, ?_⟩
      intro hnil
      rw [hnil] at hpos
      simp [courseRelevance] at hpos
    · simp only [if_neg hpos] at hsome
      exact Option.noConfusion hsome
  · intro hnil
    subst hnil
    simp only [recommend_courses, courseRelevance]
    induction available_courses with
    | nil => rfl
    | cons c cs ih => simpa using ih

/-- Witness for C8: the spec's example — a course tagged `["docker","kubernetes"]`
against missing skills `["docker"]` has relevance 1. -/
theorem recommend_courses_spec_witness :
    ∀ cr ∈ recommend_courses ["docker".toList]
        [{ id := 1, title := "K8s".toList,
           skill_tags := ["docker".toList, "kubernetes".toList],
           provider := "p".toList, url := "u".toList, description := "d".toList }],
      0 < cr.relevance_score ∧ ["docker".toList] ≠ ([] : List Str) :=
  fun cr hcr =>
    ⟨((recommend_courses_spec ["docker".toList] _).2.2.1 cr hcr).2.1,
     ((recommend_courses_spec ["docker".toList] _).2.2.1 cr hcr).2.2.2⟩

/-! ## C6 — match-history upsert invariant -/

/-- Number of `match_history` rows for the `(employee_id, project_id)` pair. -/
def pairCount (hist : List MatchRecord) (e p : Nat) : Nat :=
  hist.countP (fun r => r.employee_id == e && r.project_id == p)

theorem countP_map_of_pres {α : Type} (l : List α) (f : α → α)
    (q : α → Bool) (hf : ∀ r, q (f r) = q r) :
    (l.map f).countP q = l.countP q := by
  induction l with
  | nil => rfl
  | cons a l ih => simp [List.countP_cons, ih, hf]

theorem add_match_history_latest (now : Nat) (e p : Nat) (ms : ℚ) (mi ma : List Str)
    (pct osc : ℚ) (db : DB) :
    ∀ r ∈ (add_match_history now e p ms mi ma pct osc db).match_history,
      r.employee_id = e → r.project_id = p →
      r.match_score = ms ∧ r.missing_skills = mi ∧ r.matched_skills = ma ∧
        r.skill_match_percentage = pct ∧ r.overall_score = osc ∧ r.timestamp = now := by
  intro r hr hre hrp
  unfold add_match_history at hr
  cases hfind : db.match_history.find?
      (fun r => r.employee_id == e && r.project_id == p) with
  | some r0 =>
    rw [hfind] at hr
    simp only [List.mem_map] at hr
    obtain ⟨r1, _, heq⟩ := hr
    by_cases hc : (r1.employee_id == e && r1.project_id == p) = true
    · rw [if_pos hc] at heq
      subst heq
      exact ⟨rfl, rfl, rfl, rfl, rfl, rfl⟩
    · rw [if_neg hc] at heq
      subst heq
      exact absurd (by simp [hre, hrp]) hc
  | none =>
    rw [hfind] at hr
    simp only [List.mem_append, List.mem_singleton] at hr
    cases hr with
    | inl h =>
      have := List.find?_eq_none.mp hfind r h
      simp [hre, hrp] at this
    | inr h =>
      subst h
      exact ⟨rfl, rfl, rfl, rfl, rfl, rfl⟩

theorem pairCount_add (now : Nat) (e p : Nat) (ms : ℚ) (mi ma : List Str)
    (pct osc : ℚ) (db : DB) :
    pairCount (add_match_history now e p ms mi ma pct osc db).match_history e p =
      if pairCount db.match_history e p = 0 then 1
      else pairCount db.match_history e p := by
  unfold add_match_history
  cases hfind : db.match_history.find?
      (fun r => r.employee_id == e && r.project_id == p) with
  | some r0 =>
    have hr0 := List.mem_of_find?_eq_some hfind
    have hp0 := List.find?_some hfind
    have hpos : 0 < List.countP
        (fun r => r.employee_id == e && r.project_id == p) db.match_history :=
      List.countP_pos_iff.mpr ⟨r0, hr0, hp0⟩
    simp only [pairCount]
    rw [countP_map_of_pres _ _ _
      (fun r => by
        by_cases hc : (r.employee_id == e && r.project_id == p) = true <;> simp [hc])]
    rw [if_neg (Nat.pos_iff_ne_zero.mp hpos)]
  | none =>
    have hz : List.countP
        (fun r => r.employee_id == e && r.project_id == p) db.match_history = 0 := by
      apply List.countP_eq_zero.mpr
      intro r hr
      simpa using List.find?_eq_none.mp hfind r hr
    simp only [pairCount, List.countP_append, hz, List.countP_cons, List.countP_nil]
    simp

/-- C6: at most one `MatchRecord` per `(employee_id, project_id)` pair — two
`add_match_history` calls for the same pair leave exactly one record for that
pair, whose scores and skill lists reflect the second call and whose timestamp
is the second call's. -/
theorem add_match_history_upsert (now1 now2 e p : Nat) (s1 s2 : ℚ)
    (mi1 ma1 mi2 ma2 : List Str) (pct1 o1 pct2 o2 : ℚ) (db : DB)
    (h : pairCount db.match_history e p ≤ 1) :
    pairCount (add_match_history now2 e p s2 mi2 ma2 pct2 o2
        (add_match_history now1 e p s1 mi1 ma1 pct1 o1 db)).match_history e p = 1 ∧
    ∀ r ∈ (add_match_history now2 e p s2 mi2 ma2 pct2 o2
        (add_match_history now1 e p s1 mi1 ma1 pct1 o1 db)).match_history,
      r.employee_id = e → r.project_id = p →
      r.match_score = s2 ∧ r.missing_skills = mi2 ∧ r.matched_skills = ma2 ∧
        r.skill_match_percentage = pct2 ∧ r.overall_score = o2 ∧ r.timestamp = now2 := by
  constructor
  · rw [pairCount_add, pairCount_add]
    rcases Nat.le_one_iff_eq_zero_or_eq_one.mp h with h0 | h1
    · simp [h0]
    · simp [h1]
  · exact add_match_history_latest now2 e p s2 mi2 ma2 pct2 o2 _

/-- Witness for C6: two calls for the pair `(1,2)` on an empty history leave
exactly one record for that pair. -/
theorem add_match_history_upsert_witness :
    pairCount (add_match_history 2 1 2 80 [] [] 50 70
        (add_match_history 1 1 2 90 [] [] 100 95
          { employees := [], projects := [], courses := [], match_history := [] }
        )).match_history 1 2 = 1 :=
  (add_match_history_upsert 1 2 1 2 90 80 [] [] [] [] 100 95 50 70
    { employees := [], projects := [], courses := [], match_history := [] }
    (by decide)).1

/-! ## C2 — embedding generator -/

theorem length_leBytes (k n : Nat) : (leBytes k n).length = k := by
  simp [leBytes]

theorem mem_leBytes_lt {k n b : Nat} (h : b ∈ leBytes k n) : b < 256 := by
  simp only [leBytes, List.mem_map, List.mem_range] at h
  obtain ⟨i, _, rfl⟩ := h
  exact Nat.mod_lt _ (by norm_num)

theorem md5Bytes_length (msg : List Nat) : (md5Bytes msg).length = 16 := by
  simp [md5Bytes, length_leBytes]

theorem mem_md5Bytes_lt {msg : List Nat} {b : Nat} (h : b ∈ md5Bytes msg) : b < 256 := by
  simp only [md5Bytes, List.mem_append] at h
  rcases h with ((h | h) | h) | h <;> exact mem_leBytes_lt h

theorem hexVal_hexChar {n : Nat} (h : n < 16) : hexVal (hexChar n) = n := by
  interval_cases n <;> rfl

theorem hexPairVals_flatMap (bytes : List Nat) (h : ∀ b ∈ bytes, b < 256) :
    hexPairVals (bytes.flatMap byteHex) = bytes.map (fun b : ℕ => ((b : ℚ) / 255 : ℚ)) := by
  induction bytes with
  | nil => rfl
  | cons b bs ih =>
    have h2 : ∀ x ∈ bs, x < 256 := fun x hx => h x (List.mem_cons_of_mem _ hx)
    have hd : b / 16 < 16 :=
      Nat.div_lt_of_lt_mul (by have := h b (List.mem_cons_self _ _); omega)
    have hm : b % 16 < 16 := Nat.mod_lt _ (by norm_num)
    have hstep : (b :: bs).flatMap byteHex
        = hexChar (b / 16) :: hexChar (b % 16) :: bs.flatMap byteHex := rfl
    rw [hstep, hexPairVals, hexVal_hexChar hd, hexVal_hexChar hm, ih h2, List.map_cons]
    rw [Nat.div_add_mod]

theorem hexPairVals_digest (msg : List Nat) :
    hexPairVals (md5HexDigest msg) =
      (md5Bytes msg).map (fun b : ℕ => ((b : ℚ) / 255 : ℚ)) :=
  hexPairVals_flatMap (md5Bytes msg) (fun _ hb => mem_md5Bytes_lt hb)

theorem length_hexPairVals_digest (msg : List Nat) :
    (hexPairVals (md5HexDigest msg)).length = 16 := by
  rw [hexPairVals_digest, List.length_map, md5Bytes_length]

/-- Every value `b/255` of a digest byte `b` is a component of the embedding. -/
theorem mem_embedding_of_byte {text : Str} {b : Nat}
    (hb : b ∈ md5Bytes (utf8Bytes text)) :
    ((b : ℚ) / 255) ∈ generate_embedding text := by
  have hmem : ((b : ℚ) / 255) ∈ hexPairVals (md5HexDigest (utf8Bytes text)) := by
    rw [hexPairVals_digest]
    exact List.mem_map.mpr ⟨b, hb, rfl⟩
  have hlen := length_hexPairVals_digest (utf8Bytes text)
  simp only [generate_embedding]
  rw [List.take_append_eq_append_take, List.take_of_length_le (by omega)]
  exact List.mem_append.mpr (Or.inl hmem)

/-- C2 (amended): the embedding function is a pure (hence deterministic) function
of the text, always returns exactly 384 components, and every component lies in
the closed interval `[0,1]` (a digest byte `0xff` attains exactly 1, so the
half-open interval `[0,1)` of the original claim is not an invariant). -/
theorem generate_embedding_spec (text : Str) :
    generate_embedding text = generate_embedding text ∧
    (generate_embedding text).length = 384 ∧
    ∀ c ∈ generate_embedding text, 0 ≤ c ∧ c ≤ 1 := by
  have hlen := length_hexPairVals_digest (utf8Bytes text)
  refine ⟨rfl, ?_, ?_⟩
  · simp only [generate_embedding]
    rw [List.length_take, List.length_append, List.length_replicate, hlen]
    omega
  · intro c hc
    simp only [generate_embedding] at hc
    have hc' := List.mem_of_mem_take hc
    rw [List.mem_append] at hc'
    rcases hc' with h | h
    · rw [hexPairVals_digest, List.mem_map] at h
      obtain ⟨b, hb, rfl⟩ := h
      have hblt : b < 256 := mem_md5Bytes_lt hb
      constructor
      · positivity
      · rw [div_le_one (by norm_num : (0 : ℚ) < 255)]
        have hble : b ≤ 255 := by omega
        exact_mod_cast hble
    · rw [List.mem_replicate] at h
      rw [h.2]
      norm_num

set_option maxRecDepth 10000 in
/-- Witness for amended C2 at the empty text: the first digest byte of
`md5("")` is `0xd4 = 212`, giving the component `212/255 ∈ [0,1]`. -/
theorem generate_embedding_spec_witness :
    0 ≤ ((212 : ℕ) : ℚ)/255 ∧ ((212 : ℕ) : ℚ)/255 ≤ 1 :=
  (generate_embedding_spec []).2.2 _ (mem_embedding_of_byte (by decide))

set_option maxRecDepth 10000 in
/-- C2 counterexample: for input `"12"`, whose MD5 digest
`c20ad4d76fe97759aa27a0c99bff6710` has the byte `0xff` at position 13, the
embedding contains the component `255/255 = 1`, which does not lie in the
half-open interval `[0,1)` asserted by the claim. -/
theorem generate_embedding_not_lt_one :
    (1 : ℚ) ∈ generate_embedding "12".toList ∧ ¬((1 : ℚ) < 1) := by
  constructor
  · have hb : (255 : ℕ) ∈ md5Bytes (utf8Bytes "12".toList) := by decide
    have hmem := mem_embedding_of_byte hb
    rwa [show (((255 : ℕ) : ℚ) / 255) = 1 by norm_num] at hmem
  · norm_num

/-! ## Orchestrator state lemmas -/

theorem add_match_history_projects (now : Nat) (e p : Nat) (ms : ℚ) (mi ma : List Str)
    (pct osc : ℚ) (db : DB) :
    (add_match_history now e p ms mi ma pct osc db).projects = db.projects := by
  unfold add_match_history
  split <;> rfl

theorem ensureEmployeeEmbedding_projects (st : SysState) (employee_id : Nat)
    (employee : Employee) :
    (ensureEmployeeEmbedding st employee_id employee).2.db.projects = st.db.projects := by
  unfold ensureEmployeeEmbedding
  split <;> rfl

theorem ensureEmployeeEmbedding_history (st : SysState) (employee_id : Nat)
    (employee : Employee) :
    (ensureEmployeeEmbedding st employee_id employee).2.db.match_history
      = st.db.match_history := by
  unfold ensureEmployeeEmbedding
  split <;> rfl

theorem ensureProjectEmbedding_employees (st : SysState) (project_id : Nat)
    (project : Project) :
    (ensureProjectEmbedding st project_id project).2.db.employees = st.db.employees := by
  unfold ensureProjectEmbedding
  split <;> rfl

theorem ensureProjectEmbedding_history (st : SysState) (project_id : Nat)
    (project : Project) :
    (ensureProjectEmbedding st project_id project).2.db.match_history
      = st.db.match_history := by
  unfold ensureProjectEmbedding
  split <;> rfl

/-- A `match_history` row for the `(e, p)` pair exists. -/
def pairExists (hist : List MatchRecord) (e p : Nat) : Prop :=
  ∃ r ∈ hist, r.employee_id = e ∧ r.project_id = p

theorem pairExists_add_self (now : Nat) (e p : Nat) (ms : ℚ) (mi ma : List Str)
    (pct osc : ℚ) (db : DB) :
    pairExists (add_match_history now e p ms mi ma pct osc db).match_history e p := by
  unfold add_match_history
  cases hfind : db.match_history.find?
      (fun r => r.employee_id == e && r.project_id == p) with
  | some r0 =>
    have hr0 := List.mem_of_find?_eq_some hfind
    have hp0 := List.find?_some hfind
    refine ⟨_, List.mem_map.mpr ⟨r0, hr0, rfl⟩, ?_⟩
    rw [if_pos hp0]
    simp only [Bool.and_eq_true, beq_iff_eq] at hp0
    exact ⟨hp0.1, hp0.2⟩
  | none =>
    exact ⟨_, List.mem_append.mpr (Or.inr (List.mem_singleton.mpr rfl)), rfl, rfl⟩

theorem pairExists_add_mono {e' p' : Nat} (now : Nat) (e p : Nat) (ms : ℚ)
    (mi ma : List Str) (pct osc : ℚ) (db : DB)
    (h : pairExists db.match_history e' p') :
    pairExists (add_match_history now e p ms mi ma pct osc db).match_history e' p' := by
  obtain ⟨r, hr, hre, hrp⟩ := h
  unfold add_match_history
  split
  · refine ⟨_, List.mem_map.mpr ⟨r, hr, rfl⟩, ?_⟩
    by_cases hc : (r.employee_id == e && r.project_id == p) = true
    · rw [if_pos hc]
      exact ⟨hre, hrp⟩
    · rw [if_neg hc]
      exact ⟨hre, hrp⟩
  · exact ⟨r, List.mem_append.mpr (Or.inl hr), hre, hrp⟩

theorem enhanceProjects_pairExists_mono {e' p' : Nat} (now employee_id : Nat)
    (skills : List Str) (l : List SimilarProject) (db : DB)
    (h : pairExists db.match_history e' p') :
    pairExists (enhanceProjects now employee_id skills l db).2.match_history e' p' := by
  induction l generalizing db with
  | nil => exact h
  | cons pd rest ih =>
    unfold enhanceProjects
    cases hf : (get_all_projects db).find? (fun p => p.id == pd.project_id) with
    | none => exact ih db h
    | some project =>
      exact ih _ (pairExists_add_mono _ _ _ _ _ _ _ _ _ h)

theorem enhanceProjects_persists (now employee_id : Nat) (skills : List Str)
    (l : List SimilarProject) (db : DB) :
    ∀ m ∈ (enhanceProjects now employee_id skills l db).1,
      pairExists (enhanceProjects now employee_id skills l db).2.match_history
        employee_id m.project_id := by
  induction l generalizing db with
  | nil =>
    intro m hm
    exact absurd hm (List.not_mem_nil m)
  | cons pd rest ih =>
    intro m hm
    unfold enhanceProjects at hm ⊢
    cases hf : (get_all_projects db).find? (fun p => p.id == pd.project_id) with
    | none =>
      rw [hf] at hm
      exact ih db m hm
    | some project =>
      rw [hf] at hm
      simp only [List.mem_cons] at hm
      rcases hm with rfl | hm
      · exact enhanceProjects_pairExists_mono _ _ _ _ _
          (pairExists_add_self _ _ _ _ _ _ _ _ _)
      · exact ih _ m hm

/-! ## C5 — persistence of matches -/

/-- C5 (amended): only the employee→projects direction persists matches — every
enriched match it produces has a `MatchRecord` for the `(employee, project)`
pair in the resulting history, while `match_project_to_employees` leaves the
match history entirely unchanged (it persists nothing). -/
theorem match_persistence (dist : List ℚ → List ℚ → ℚ) (now : Nat) (st : SysState)
    (employee_id project_id top_k : Nat) :
    (∀ m ∈ (match_employee_to_projects dist now st employee_id top_k).1,
      ∃ r ∈ (match_employee_to_projects dist now st employee_id top_k).2.db.match_history,
        r.employee_id = employee_id ∧ r.project_id = m.project_id) ∧
    (match_project_to_employees dist st project_id top_k).2.db.match_history
      = st.db.match_history := by
  constructor
  · intro m hm
    unfold match_employee_to_projects at hm ⊢
    cases hemp : get_employee st.db employee_id with
    | none =>
      rw [hemp] at hm
      simp at hm
    | some employee =>
      rw [hemp] at hm
      dsimp only at hm
      rw [List.mem_insertionSort] at hm
      exact enhanceProjects_persists _ _ _ _ _ m hm
  · unfold match_project_to_employees
    cases hp : (get_all_projects st.db).find? (fun p => p.id == project_id) with
    | none => rfl
    | some project => exact ensureProjectEmbedding_history st project_id project

/-! ## C7 — ranking, truncation, silent omission -/

theorem find_similar_projects_length (dist : List ℚ → List ℚ → ℚ)
    (coll : List ProjectEntry) (emb : List ℚ) (top_k : Nat) :
    (find_similar_projects dist coll emb top_k).length ≤ top_k := by
  simp only [find_similar_projects, chromaQuery, List.length_map]
  exact List.length_take_le _ _

theorem find_similar_employees_length (dist : List ℚ → List ℚ → ℚ)
    (coll : List EmployeeEntry) (emb : List ℚ) (top_k : Nat) :
    (find_similar_employees dist coll emb top_k).length ≤ top_k := by
  simp only [find_similar_employees, chromaQuery, List.length_map]
  exact List.length_take_le _ _

theorem enhanceProjects_length (now employee_id : Nat) (skills : List Str)
    (l : List SimilarProject) (db : DB) :
    (enhanceProjects now employee_id skills l db).1.length ≤ l.length := by
  induction l generalizing db with
  | nil => simp [enhanceProjects]
  | cons pd rest ih =>
    unfold enhanceProjects
    cases hf : (get_all_projects db).find? (fun p => p.id == pd.project_id) with
    | none => exact Nat.le_succ_of_le (ih db)
    | some project =>
      simpa using Nat.succ_le_succ (ih _)

theorem enhanceProjects_resolved (now employee_id : Nat) (skills : List Str)
    (l : List SimilarProject) (db : DB) :
    ∀ m ∈ (enhanceProjects now employee_id skills l db).1,
      ∃ pr ∈ db.projects, pr.id = m.project_id := by
  induction l generalizing db with
  | nil =>
    intro m hm
    exact absurd hm (List.not_mem_nil m)
  | cons pd rest ih =>
    intro m hm
    unfold enhanceProjects at hm
    cases hf : (get_all_projects db).find? (fun p => p.id == pd.project_id) with
    | none =>
      rw [hf] at hm
      exact ih db m hm
    | some project =>
      rw [hf] at hm
      simp only [List.mem_cons] at hm
      rcases hm with rfl | hm
      · refine ⟨project, List.mem_of_find?_eq_some hf, ?_⟩
        have := List.find?_some hf
        simpa using this
      · have hres := ih _ m hm
        rwa [add_match_history_projects] at hres

theorem enhanceEmployees_length (db : DB) (required_skills : List Str)
    (l : List SimilarEmployee) :
    (enhanceEmployees db required_skills l).length ≤ l.length := by
  induction l with
  | nil => simp [enhanceEmployees]
  | cons ed rest ih =>
    unfold enhanceEmployees
    cases hf : get_employee db ed.employee_id with
    | none => exact Nat.le_succ_of_le ih
    | some employee => simpa using Nat.succ_le_succ ih

theorem enhanceEmployees_resolved (db : DB) (required_skills : List Str)
    (l : List SimilarEmployee) :
    ∀ m ∈ enhanceEmployees db required_skills l,
      ∃ e ∈ db.employees, e.id = m.employee_id := by
  induction l with
  | nil =>
    intro m hm
    exact absurd hm (List.not_mem_nil m)
  | cons ed rest ih =>
    intro m hm
    unfold enhanceEmployees at hm
    cases hf : get_employee db ed.employee_id with
    | none =>
      rw [hf] at hm
      exact ih m hm
    | some employee =>
      rw [hf] at hm
      simp only [List.mem_cons] at hm
      rcases hm with rfl | hm
      · refine ⟨employee, List.mem_of_find?_eq_some hf, ?_⟩
        have := List.find?_some hf
        simpa using this
      · exact ih m hm

theorem sorted_desc_projects (l : List EnhancedProjectMatch) :
    (l.insertionSort (fun a b => b.overall_score ≤ a.overall_score)).Pairwise
      (fun a b => b.overall_score ≤ a.overall_score) := by
  haveI : IsTotal EnhancedProjectMatch
      (fun a b => b.overall_score ≤ a.overall_score) :=
    ⟨fun a b => le_total b.overall_score a.overall_score⟩
  haveI : IsTrans EnhancedProjectMatch
      (fun a b => b.overall_score ≤ a.overall_score) :=
    ⟨fun _ _ _ hab hbc => le_trans hbc hab⟩
  exact List.sorted_insertionSort _ l

theorem sorted_desc_employees (l : List EnhancedEmployeeMatch) :
    (l.insertionSort (fun a b => b.overall_score ≤ a.overall_score)).Pairwise
      (fun a b => b.overall_score ≤ a.overall_score) := by
  haveI : IsTotal EnhancedEmployeeMatch
      (fun a b => b.overall_score ≤ a.overall_score) :=
    ⟨fun a b => le_total b.overall_score a.overall_score⟩
  haveI : IsTrans EnhancedEmployeeMatch
      (fun a b => b.overall_score ≤ a.overall_score) :=
    ⟨fun _ _ _ hab hbc => le_trans hbc hab⟩
  exact List.sorted_insertionSort _ l

/-- C7: both match operations return a list sorted by `overall_score` descending
with at most `top_k` entries, and every returned match resolves to a backing
record (candidates whose record cannot be resolved are silently dropped, never
an error — the operations are total functions). -/
theorem match_results_sorted (dist : List ℚ → List ℚ → ℚ) (now : Nat) (st : SysState)
    (employee_id project_id top_k : Nat) :
    ((match_employee_to_projects dist now st employee_id top_k).1.Pairwise
        (fun a b => b.overall_score ≤ a.overall_score) ∧
      (match_employee_to_projects dist now st employee_id top_k).1.length ≤ top_k ∧
      ∀ m ∈ (match_employee_to_projects dist now st employee_id top_k).1,
        ∃ pr ∈ st.db.projects, pr.id = m.project_id) ∧
    ((match_project_to_employees dist st project_id top_k).1.Pairwise
        (fun a b => b.overall_score ≤ a.overall_score) ∧
      (match_project_to_employees dist st project_id top_k).1.length ≤ top_k ∧
      ∀ m ∈ (match_project_to_employees dist st project_id top_k).1,
        ∃ e ∈ st.db.employees, e.id = m.employee_id) := by
  constructor
  · unfold match_employee_to_projects
    cases hemp : get_employee st.db employee_id with
    | none => exact ⟨List.Pairwise.nil, Nat.zero_le _, fun m hm => absurd hm (List.not_mem_nil m)⟩
    | some employee =>
      dsimp only
      refine ⟨sorted_desc_projects _, ?_, ?_⟩
      · rw [List.length_insertionSort]
        exact le_trans (enhanceProjects_length _ _ _ _ _)
          (find_similar_projects_length _ _ _ _)
      · intro m hm
        rw [List.mem_insertionSort] at hm
        have hres := enhanceProjects_resolved _ _ _ _ _ m hm
        rwa [ensureEmployeeEmbedding_projects] at hres
  · unfold match_project_to_employees
    cases hp : (get_all_projects st.db).find? (fun p => p.id == project_id) with
    | none => exact ⟨List.Pairwise.nil, Nat.zero_le _, fun m hm => absurd hm (List.not_mem_nil m)⟩
    | some project =>
      dsimp only
      refine ⟨sorted_desc_employees _, ?_, ?_⟩
      · rw [List.length_insertionSort]
        exact le_trans (enhanceEmployees_length _ _ _)
          (find_similar_employees_length _ _ _ _)
      · intro m hm
        rw [List.mem_insertionSort] at hm
        have hres := enhanceEmployees_resolved _ _ _ m hm
        rwa [ensureProjectEmbedding_employees] at hres

/-! ## C9 — behaviour on absent entities -/

/-- C9 (amended): when the requested entity is absent, both match operations
return the empty list with the state untouched, and `analyze_skill_gaps`
returns the empty dict; the empty dict is distinguishable (a present employee
never yields it), but the matching operations' empty list is a plain empty
result, not a distinguishable not-found signal. -/
theorem absent_entity_outcomes (dist : List ℚ → List ℚ → ℚ) (now : Nat) (st : SysState)
    (employee_id project_id top_k : Nat) (pid : Option Nat) :
    (get_employee st.db employee_id = none →
      match_employee_to_projects dist now st employee_id top_k = ([], st)) ∧
    ((get_all_projects st.db).find? (fun p => p.id == project_id) = none →
      match_project_to_employees dist st project_id top_k = ([], st)) ∧
    (get_employee st.db employee_id = none →
      analyze_skill_gaps st employee_id pid = .emptyDict) ∧
    (∀ e, get_employee st.db employee_id = some e →
      analyze_skill_gaps st employee_id pid ≠ .emptyDict) := by
  refine ⟨?_, ?_, ?_, ?_⟩
  · intro h
    unfold match_employee_to_projects
    rw [h]
  · intro h
    unfold match_project_to_employees
    rw [h]
  · intro h
    unfold analyze_skill_gaps
    rw [h]
  · intro e he
    unfold analyze_skill_gaps
    rw [he]
    dsimp only
    split
    · split <;> simp
    · simp

/-! ## C10 — unknown project id in gap analysis -/

/-- C10: for an existing employee and a non-zero project id matching no stored
project, `analyze_skill_gaps` falls through and returns Python `None` — neither
a report nor an error. -/
theorem analyze_skill_gaps_unknown_project (st : SysState) (employee_id p : Nat)
    (e : Employee) (he : get_employee st.db employee_id = some e) (hp : p ≠ 0)
    (hnone : (get_all_projects st.db).find? (fun pr => pr.id == p) = none) :
    analyze_skill_gaps st employee_id (some p) = .pyNone := by
  unfold analyze_skill_gaps
  rw [he]
  dsimp only
  have ht : truthyId (some p) = true := by simp [truthyId, hp]
  rw [if_pos ht]
  simp only [Option.getD_some]
  rw [hnone]

/-! ## Concrete system states for counterexamples and witnesses -/

/-- A trivial stand-in for ChromaDB's cosine-distance function. -/
def dist0 : List ℚ → List ℚ → ℚ := fun _ _ => 0

def emp1 : Employee :=
  { id := 1, name := "Alice".toList, skills := ["python".toList],
    preferences := [], resume_text := "r".toList, embedding_vector := some [1] }

def proj1 : Project :=
  { id := 1, title := "Proj".toList, required_skills := ["python".toList],
    team_size := 3, description := "d".toList, embedding_vector := some [1] }

def empEntry1 : EmployeeEntry :=
  { employee_id := 1, name := "Alice".toList, skills := ["python".toList],
    document := [], vector := [1] }

def projEntry1 : ProjectEntry :=
  { project_id := 1, title := "Proj".toList, required_skills := ["python".toList],
    document := [], vector := [1] }

/-- Employee 1 and project 1 exist; the employee index holds employee 1; the
project index is empty; no match history. -/
def st0 : SysState :=
  { db := { employees := [emp1], projects := [proj1], courses := [],
            match_history := [] },
    employees_collection := [empEntry1], projects_collection := [] }

/-- Like `st0` but with project 1 also present in the project index. -/
def st1c : SysState :=
  { db := st0.db,
    employees_collection := [empEntry1], projects_collection := [projEntry1] }

/-- The completely empty state. -/
def stNF : SysState :=
  { db := { employees := [], projects := [], courses := [], match_history := [] },
    employees_collection := [], projects_collection := [] }

/-- C5 counterexample: in `st0`, `match_project_to_employees` produces one
enriched match for project 1 / employee 1 but persists no `MatchRecord` at all —
matching is not symmetric with respect to persistence. -/
theorem match_project_to_employees_no_persist :
    (match_project_to_employees dist0 st0 1 5).1.length = 1 ∧
    (match_project_to_employees dist0 st0 1 5).2.db.match_history = [] := by
  constructor
  · decide
  · decide

theorem st1c_result_ne_nil : (match_employee_to_projects dist0 0 st1c 1 5).1 ≠ [] := by
  decide

theorem st1c_head_project_id :
    ((match_employee_to_projects dist0 0 st1c 1 5).1.head st1c_result_ne_nil).project_id
      = 1 := by
  decide

/-- Witness for amended C5: in `st1c`, the employee→projects direction persists
a record for the pair `(1, 1)` matching the produced enriched match. -/
theorem match_persistence_witness :
    ∃ r ∈ (match_employee_to_projects dist0 0 st1c 1 5).2.db.match_history,
      r.employee_id = 1 ∧ r.project_id = 1 := by
  have h := (match_persistence dist0 0 st1c 1 1 5).1 _
    (List.head_mem st1c_result_ne_nil)
  rwa [st1c_head_project_id] at h

/-- Witness for C7: in `st1c`, the head of the employee→projects result resolves
to a stored project with id 1. -/
theorem match_results_sorted_witness :
    ∃ pr ∈ st1c.db.projects, pr.id = 1 := by
  have h := (match_results_sorted dist0 0 st1c 1 1 5).1.2.2 _
    (List.head_mem st1c_result_ne_nil)
  rwa [st1c_head_project_id] at h

/-- C9 counterexample: the empty list returned by `match_employee_to_projects`
for an absent employee (state `stNF`) is identical to the result for a present
employee with no indexed projects (state `st0`) — it is not a distinguishable
not-found outcome. -/
theorem match_empty_indistinguishable :
    get_employee stNF.db 1 = none ∧
    (get_employee st0.db 1).isSome = true ∧
    (match_employee_to_projects dist0 0 stNF 1 5).1 = [] ∧
    (match_employee_to_projects dist0 0 st0 1 5).1 = [] := by
  refine ⟨rfl, rfl, ?_, ?_⟩
  · decide
  · decide

/-- Witness for amended C9: the absent-employee early return in `stNF`, and the
never-empty-dict outcome for the present employee of `st0`. -/
theorem absent_entity_outcomes_witness :
    match_employee_to_projects dist0 0 stNF 1 5 = ([], stNF) ∧
    analyze_skill_gaps st0 1 none ≠ .emptyDict :=
  ⟨(absent_entity_outcomes dist0 0 stNF 1 1 5 none).1 rfl,
   (absent_entity_outcomes dist0 0 st0 1 1 5 none).2.2.2 emp1 rfl⟩

/-- Witness for C10: employee 1 exists in `st0`, project id 3 is non-zero and
unknown, and `analyze_skill_gaps` returns Python `None`. -/
theorem analyze_skill_gaps_unknown_project_witness :
    analyze_skill_gaps st0 1 (some 3) = .pyNone :=
  analyze_skill_gaps_unknown_project st0 1 3 emp1 rfl (by decide) rfl

end HRTalent
